import Mathlib

set_option maxRecDepth 8000

/-!
# Verification of the Moddable instrumentation log processor

Shallow embedding of `src/log_processor_2.py`, a script that classifies
log lines carrying VM instrumentation data and emits two CSV datasets
("worker" and "controller").

Modelling conventions:
* Python strings are modelled as `List Char`; string literals of the
  source appear as Lean string literals converted with `.toList`.
* `re.match(r'(\d+) instruments: (.+)', line)` is modelled structurally:
  the pattern is anchored at the start of the line, `\d+` takes the
  maximal (nonempty) run of digits (backtracking to a shorter run can
  never help, because the literal part starts with a space and the
  rejected character is a digit), the literal `" instruments: "` must
  follow, and `(.+)` greedily takes the maximal nonempty run of
  characters up to (not including) a newline.  Python's `\d` also
  matches non-ASCII Unicode digits; the model restricts to ASCII
  digits, which is all the input format uses.
* `int(timestamp)` on the matched digit run is modelled by `digitsToNat`.
* `data.split(',')` (single-character separator, no limit) is modelled
  by `splitOnComma`; `"".split(',') == ['']` is preserved.
* `data.replace('"', '\\"')` with a one-character pattern replaces every
  occurrence of `"` independently; it is modelled character by character
  by `escapeQuotes`.
* `str.strip()` removes leading and trailing whitespace; it is modelled
  by `pyStrip` using `Char.isWhitespace` (the ASCII whitespace the
  claims exercise).
* Opening a file with mode `'w'` truncates it, so the resulting file
  content is a function of what is written only; `writeLogsToFile`
  returns that content.
* All functions are total: no code path of the script raises on a
  non-matching line, which the embedding reflects by returning `none`.
-/

/-- `WORKER_CSV_HEADER` from the source, verbatim (newline included). -/
def WORKER_CSV_HEADER : String := "timestamp,Chunk used,Chunk available,Slot used,Slot available,Stack used,Stack available,Garbage collections,Keys used,Modules loaded,Parser used,Floating Point\n"

/-- `CONTROLLER_CSV_HEADER` from the source, verbatim (newline included). -/
def CONTROLLER_CSV_HEADER : String := "timestamp,Pixels drawn,Frames drawn,Network bytes read,Network bytes written,Network sockets,Timers,Files,Poco display list used,Piu command List used,SPI flash erases,System bytes free,CPU 0,CPU 1,Chunk used,Chunk available,Slot used,Slot available,Stack used,Stack available,Garbage collections,Keys used,Modules loaded,Parser used,Floating Point\n"

/-- Does `needle` occur at the start of `hay`?  (Model of Python string
prefix testing, used to build substring search.) -/
def isStartOf (needle hay : List Char) : Bool :=
  match needle, hay with
  | [], _ => true
  | _ :: _, [] => false
  | a :: t, b :: u => a == b && isStartOf t u

/-- Does `needle` occur anywhere in `hay`?  Model of Python's
`needle in hay` substring test. -/
def occursIn (needle hay : List Char) : Bool :=
  match hay with
  | [] => isStartOf needle []
  | _ :: t => isStartOf needle hay || occursIn needle t

/-- Model of `int(s)` on a string of decimal digits. -/
def digitsToNat (cs : List Char) : Nat :=
  cs.foldl (fun acc c => acc * 10 + (c.toNat - '0'.toNat)) 0

/-- Model of Python `s.split(',')`: split on every comma, keeping empty
pieces, `[] ↦ [[]]`. -/
def splitOnComma : List Char → List (List Char)
  | [] => [[]]
  | c :: t =>
    if c = ',' then [] :: splitOnComma t
    else
      match splitOnComma t with
      | h :: r => (c :: h) :: r
      | [] => [[c]]

/-- Joining the pieces back with commas (used to state that
classification keeps the fields in their original order). -/
def joinComma : List (List Char) → List Char
  | [] => []
  | [x] => x
  | x :: r => x ++ ',' :: joinComma r

/-- Model of `data.replace('"', '\\"')`: every double quote is replaced
by backslash-quote; all other characters pass through unchanged. -/
def escapeQuotes : List Char → List Char
  | [] => []
  | c :: t => if c = '"' then '\\' :: '"' :: escapeQuotes t else c :: escapeQuotes t

/-- Specification predicate for the escaping claim: every `"` in the
list is immediately preceded by a `\`. -/
def quotesEscaped : List Char → Bool
  | [] => true
  | '\\' :: '"' :: t => quotesEscaped t
  | '"' :: _ => false
  | _ :: t => quotesEscaped t

/-- Inverse of the escaping: turn every `\"` back into `"`.  Used to
state that escaping is the only transformation applied. -/
def unescapeQuotes : List Char → List Char
  | '\\' :: '"' :: t => '"' :: unescapeQuotes t
  | c :: t => c :: unescapeQuotes t
  | [] => []

/-- Remove trailing whitespace (half of Python `str.strip()`). -/
def stripTrail (cs : List Char) : List Char :=
  (cs.reverse.dropWhile Char.isWhitespace).reverse

/-- Model of Python `str.strip()`: remove leading and trailing
whitespace. -/
def pyStrip (cs : List Char) : List Char :=
  (stripTrail cs).dropWhile Char.isWhitespace

/-- Model of `re.match(r'(\d+) instruments: (.+)', line)`: on success,
returns the pair (digit run of group 1, group 2). -/
def reMatchInstr (cs : List Char) : Option (List Char × List Char) :=
  let digits := cs.takeWhile Char.isDigit
  let rest := cs.dropWhile Char.isDigit
  if digits = [] then none
  else if isStartOf (" instruments: ".toList) rest then
    let data := (rest.drop (" instruments: ".toList.length)).takeWhile (fun c => c != '\n')
    if data = [] then none else some (digits, data)
  else none

/-- `parse_log_line` from the source.  The Python function returns the
tuple `(None, None, None)` on a non-matching line and
`(key, timestamp, data)` otherwise; the embedding returns `none` or
`some (key, timestamp, data)`. -/
def parseLogLine (cs : List Char) : Option (String × Nat × List Char) :=
  if occursIn ("instruments:".toList) cs then
    match reMatchInstr cs with
    | some (tsStr, data) =>
      let timestamp := digitsToNat tsStr
      let dataItems := splitOnComma data
      if dataItems.length = 11 then some ("worker", timestamp, data)
      else if dataItems.length = 24 then some ("controller", timestamp, data)
      else none
    | none => none
  else none

/-- The row built in `process_log`:
`log_entry = f'{timestamp}, {escaped_data.strip()}'` where
`escaped_data = data.replace('"', '\\"')`. -/
def formatLogEntry (timestamp : Nat) (data : List Char) : List Char :=
  (toString timestamp).toList ++ ',' :: ' ' :: pyStrip (escapeQuotes data)

/-- One iteration of the `for line in file` loop body of `process_log`:
classify the line and append the formatted entry to the matching
accumulator (worker on the left, controller on the right). -/
def processStep (acc : List (List Char) × List (List Char)) (line : List Char) :
    List (List Char) × List (List Char) :=
  match parseLogLine line with
  | some (key, timestamp, data) =>
    let entry := formatLogEntry timestamp data
    if key = "worker" then (acc.1 ++ [entry], acc.2) else (acc.1, acc.2 ++ [entry])
  | none => acc

/-- The accumulation phase of `process_log`: starting from the two fresh
empty lists `worker_logs` and `controller_logs`, fold the loop body over
the lines of the input file. -/
def processLines (lines : List (List Char)) : List (List Char) × List (List Char) :=
  lines.foldl processStep ([], [])

/-- `write_logs_to_file` from the source: opening with mode `'w'`
truncates the destination, so the resulting file content is exactly the
header followed by each log entry terminated by a newline. -/
def writeLogsToFile (logs : List (List Char)) (header : List Char) : List Char :=
  logs.foldl (fun acc log => acc ++ log ++ ['\n']) header

/-- `process_log` from the source: the input file is abstracted as its
list of lines (newline terminators removed, as `(.+)` never matches past
one), the result is the pair of file contents written to the worker and
controller CSV files.  `nowYear` models the ambient wall-clock state the
dead helper `convert_to_unix_timestamp` would read via
`datetime.now().year`; the only call to that helper (line 92) is
commented out in the source, so the parameter is never consulted. -/
def processLog (nowYear : Nat) (lines : List (List Char)) : List Char × List Char :=
  let acc := processLines lines
  (writeLogsToFile acc.1 WORKER_CSV_HEADER.toList,
   writeLogsToFile acc.2 CONTROLLER_CSV_HEADER.toList)

/-- One iteration of the `while True` polling loop: `process_log`
rebuilds both output files from the input alone; the previous contents
of the destination files (`prevFiles`) are truncated by mode `'w'` and
never read. -/
def runCycle (lines : List (List Char)) (prevFiles : List Char × List Char) :
    List Char × List Char :=
  processLog 0 lines

/-! ## Helper lemmas about the character-level primitives -/

lemma isStartOf_append (n x : List Char) : isStartOf n (n ++ x) = true := by
  induction n with
  | nil => rfl
  | cons a t ih => simp [isStartOf, ih]

lemma occursIn_of_isStartOf {n hay : List Char} (h : isStartOf n hay = true) :
    occursIn n hay = true := by
  cases hay with
  | nil => simpa [occursIn] using h
  | cons c t => simp [occursIn, h]

lemma occursIn_of_middle (n a b : List Char) : occursIn n (a ++ n ++ b) = true := by
  induction a with
  | nil => exact occursIn_of_isStartOf (by simpa using isStartOf_append n b)
  | cons c a ih =>
    simp [occursIn, Bool.or_eq_true]
    exact Or.inr (by simpa using ih)

lemma takeWhile_all {p : Char → Bool} {l : List Char} (h : ∀ c ∈ l, p c = true) :
    l.takeWhile p = l := by
  induction l with
  | nil => rfl
  | cons a t ih =>
    have ha : p a = true := h a (List.mem_cons_self a t)
    simp [List.takeWhile_cons, ha, ih fun c hc => h c (List.mem_cons_of_mem a hc)]

lemma takeWhile_append_stop {p : Char → Bool} {l : List Char} (c : Char) (t : List Char)
    (h : ∀ a ∈ l, p a = true) (hc : p c = false) :
    (l ++ c :: t).takeWhile p = l := by
  induction l with
  | nil => simp [List.takeWhile_cons, hc]
  | cons a l ih =>
    have ha : p a = true := h a (List.mem_cons_self a l)
    simp [List.takeWhile_cons, ha]
    exact ih fun x hx => h x (List.mem_cons_of_mem a hx)

lemma dropWhile_append_stop {p : Char → Bool} {l : List Char} (c : Char) (t : List Char)
    (h : ∀ a ∈ l, p a = true) (hc : p c = false) :
    (l ++ c :: t).dropWhile p = c :: t := by
  induction l with
  | nil => simp [List.dropWhile_cons, hc]
  | cons a l ih =>
    have ha : p a = true := h a (List.mem_cons_self a l)
    simp [List.dropWhile_cons, ha]
    exact ih fun x hx => h x (List.mem_cons_of_mem a hx)

lemma dropWhile_append_all {p : Char → Bool} {l₁ : List Char} (l₂ : List Char)
    (h : ∀ a ∈ l₁, p a = true) :
    (l₁ ++ l₂).dropWhile p = l₂.dropWhile p := by
  induction l₁ with
  | nil => rfl
  | cons a l ih =>
    have ha : p a = true := h a (List.mem_cons_self a l)
    simp [List.dropWhile_cons, ha]
    exact ih fun x hx => h x (List.mem_cons_of_mem a hx)

lemma drop_length_append (l₁ l₂ : List Char) : (l₁ ++ l₂).drop l₁.length = l₂ := by
  induction l₁ with
  | nil => rfl
  | cons a l ih => simpa using ih

lemma splitOnComma_ne_nil (l : List Char) : splitOnComma l ≠ [] := by
  cases l with
  | nil => simp [splitOnComma]
  | cons c t =>
    by_cases hc : c = ','
    · simp [splitOnComma, hc]
    · cases hsp : splitOnComma t with
      | nil => simp [splitOnComma, hc, hsp]
      | cons h r => simp [splitOnComma, hc, hsp]

lemma joinComma_splitOnComma (l : List Char) : joinComma (splitOnComma l) = l := by
  induction l with
  | nil => rfl
  | cons c t ih =>
    by_cases hc : c = ','
    · subst hc
      cases hsp : splitOnComma t with
      | nil => exact absurd hsp (splitOnComma_ne_nil t)
      | cons h r =>
        rw [hsp] at ih
        simp [splitOnComma, joinComma, hsp, ih]
    · cases hsp : splitOnComma t with
      | nil => exact absurd hsp (splitOnComma_ne_nil t)
      | cons h r =>
        rw [hsp] at ih
        cases r with
        | nil =>
          simp [joinComma] at ih
          simp [splitOnComma, hc, hsp, joinComma, ih]
        | cons r0 r1 =>
          simp [joinComma] at ih
          simp [splitOnComma, hc, hsp, joinComma, ih]

lemma splitOnComma_length (l : List Char) :
    (splitOnComma l).length = l.count ',' + 1 := by
  induction l with
  | nil => simp [splitOnComma]
  | cons c t ih =>
    by_cases hc : c = ','
    · subst hc; simp [splitOnComma, List.count_cons, ih]
    · cases hsp : splitOnComma t with
      | nil => exact absurd hsp (splitOnComma_ne_nil t)
      | cons h r =>
        rw [hsp] at ih
        simp only [List.length_cons] at ih
        simp [splitOnComma, hc, hsp, List.count_cons]
        omega

lemma escapeQuotes_append (l₁ l₂ : List Char) :
    escapeQuotes (l₁ ++ l₂) = escapeQuotes l₁ ++ escapeQuotes l₂ := by
  induction l₁ with
  | nil => rfl
  | cons c t ih =>
    by_cases hc : c = '"'
    · simp [escapeQuotes, hc, ih]
    · simp [escapeQuotes, hc, ih]

lemma escapeQuotes_of_no_quote {l : List Char} (h : ∀ c ∈ l, c ≠ '"') :
    escapeQuotes l = l := by
  induction l with
  | nil => rfl
  | cons c t ih =>
    have hc : c ≠ '"' := h c (List.mem_cons_self c t)
    simp [escapeQuotes, hc]
    exact ih fun x hx => h x (List.mem_cons_of_mem c hx)

lemma stripTrail_append_ws {ws : List Char} (l : List Char)
    (h : ∀ c ∈ ws, Char.isWhitespace c = true) :
    stripTrail (l ++ ws) = stripTrail l := by
  unfold stripTrail
  rw [List.reverse_append]
  rw [dropWhile_append_all l.reverse (fun a ha => h a (List.mem_reverse.mp ha))]

lemma pyStrip_append_ws {ws : List Char} (l : List Char)
    (h : ∀ c ∈ ws, Char.isWhitespace c = true) :
    pyStrip (l ++ ws) = pyStrip l := by
  unfold pyStrip
  rw [stripTrail_append_ws l h]

/-! ## Characterization of the regex model on well-formed lines -/

lemma reMatchInstr_construct (tsStr rest : List Char)
    (h1 : tsStr ≠ []) (h2 : ∀ c ∈ tsStr, c.isDigit = true)
    (h3 : rest ≠ []) (h4 : ∀ c ∈ rest, c ≠ '\n') :
    reMatchInstr (tsStr ++ " instruments: ".toList ++ rest) = some (tsStr, rest) := by
  have e1 : (" instruments: ".toList : List Char) = ' ' :: "instruments: ".toList := by decide
  have hline : tsStr ++ " instruments: ".toList ++ rest
      = tsStr ++ ' ' :: ("instruments: ".toList ++ rest) := by
    rw [List.append_assoc, e1]; simp
  have htake : (tsStr ++ ' ' :: ("instruments: ".toList ++ rest)).takeWhile Char.isDigit
      = tsStr := takeWhile_append_stop _ _ h2 (by decide)
  have hdrop : (tsStr ++ ' ' :: ("instruments: ".toList ++ rest)).dropWhile Char.isDigit
      = ' ' :: ("instruments: ".toList ++ rest) := dropWhile_append_stop _ _ h2 (by decide)
  have hstart : isStartOf (" instruments: ".toList) (' ' :: ("instruments: ".toList ++ rest))
      = true := by
    rw [← List.cons_append, ← e1]; exact isStartOf_append _ _
  have hdrop2 : (' ' :: ("instruments: ".toList ++ rest)).drop (" instruments: ".toList.length)
      = rest := by
    rw [← List.cons_append, ← e1]; exact drop_length_append _ _
  have htake2 : rest.takeWhile (fun c => c != '\n') = rest :=
    takeWhile_all fun c hc => by simp [h4 c hc]
  rw [hline]
  simp only [reMatchInstr]
  rw [htake, hdrop, hdrop2, htake2, if_neg h1, if_pos hstart, if_neg h3]

lemma parseLogLine_construct (tsStr rest : List Char)
    (h1 : tsStr ≠ []) (h2 : ∀ c ∈ tsStr, c.isDigit = true)
    (h3 : rest ≠ []) (h4 : ∀ c ∈ rest, c ≠ '\n') :
    parseLogLine (tsStr ++ " instruments: ".toList ++ rest)
      = if (splitOnComma rest).length = 11 then some ("worker", digitsToNat tsStr, rest)
        else if (splitOnComma rest).length = 24 then some ("controller", digitsToNat tsStr, rest)
        else none := by
  have hocc : occursIn ("instruments:".toList) (tsStr ++ " instruments: ".toList ++ rest)
      = true := by
    have e2 : tsStr ++ " instruments: ".toList ++ rest
        = (tsStr ++ [' ']) ++ "instruments:".toList ++ ([' '] ++ rest) := by
      have e3 : (" instruments: ".toList : List Char)
          = [' '] ++ "instruments:".toList ++ [' '] := by decide
      rw [e3]; simp
    rw [e2]; exact occursIn_of_middle _ _ _
  simp only [parseLogLine, hocc, reMatchInstr_construct tsStr rest h1 h2 h3 h4, if_true]

/-! ## Lemmas about quote escaping -/

lemma escapeQuotes_ne_quote_cons (l u : List Char) : escapeQuotes l ≠ '"' :: u := by
  cases l with
  | nil => simp [escapeQuotes]
  | cons c t =>
    by_cases hc : c = '"'
    · subst hc; simp [escapeQuotes]
    · simp [escapeQuotes, hc]

lemma unescapeQuotes_escapeQuotes (l : List Char) :
    unescapeQuotes (escapeQuotes l) = l := by
  induction l with
  | nil => rfl
  | cons c t ih =>
    by_cases hc : c = '"'
    · subst hc
      simp [escapeQuotes, unescapeQuotes, ih]
    · rw [escapeQuotes]
      rw [if_neg hc]
      cases hesc : escapeQuotes t with
      | nil => simp [unescapeQuotes, hesc] at ih ⊢; exact ih
      | cons e u =>
        have he : e ≠ '"' := by
          intro h
          subst h
          exact escapeQuotes_ne_quote_cons t u hesc
        by_cases hbs : c = '\\'
        · subst hbs
          rw [hesc] at ih
          simp [unescapeQuotes, he, ih]
        · rw [hesc] at ih
          simp [unescapeQuotes, hbs, he, ih]

lemma quotesEscaped_escapeQuotes (l : List Char) :
    quotesEscaped (escapeQuotes l) = true := by
  induction l with
  | nil => rfl
  | cons c t ih =>
    by_cases hc : c = '"'
    · subst hc; simp [escapeQuotes, quotesEscaped, ih]
    · rw [escapeQuotes, if_neg hc]
      cases hesc : escapeQuotes t with
      | nil => simp [quotesEscaped, hc]
      | cons e u =>
        have he : e ≠ '"' := by
          intro h
          subst h
          exact escapeQuotes_ne_quote_cons t u hesc
        rw [hesc] at ih
        by_cases hbs : c = '\\'
        · subst hbs; simp [quotesEscaped, he, ih]
        · simp [quotesEscaped, hbs, hc, ih]

lemma escapeQuotes_count_backslash (l : List Char) :
    (escapeQuotes l).count '\\' = l.count '\\' + l.count '"' := by
  induction l with
  | nil => rfl
  | cons c t ih =>
    by_cases hc : c = '"'
    · subst hc; simp [escapeQuotes, List.count_cons, ih]; omega
    · by_cases hbs : c = '\\'
      · subst hbs; simp [escapeQuotes, List.count_cons, ih]; omega
      · simp [escapeQuotes, hc, List.count_cons, hbs, ih]

lemma escapeQuotes_count_comma (l : List Char) :
    (escapeQuotes l).count ',' = l.count ',' := by
  induction l with
  | nil => rfl
  | cons c t ih =>
    by_cases hc : c = '"'
    · subst hc; simp [escapeQuotes, List.count_cons, ih]
    · simp [escapeQuotes, hc, List.count_cons, ih]

/-! ## Lemmas about the accumulation and writing phases -/

lemma processStep_none {acc : List (List Char) × List (List Char)} {line : List Char}
    (h : parseLogLine line = none) : processStep acc line = acc := by
  simp [processStep, h]

lemma processStep_some {acc : List (List Char) × List (List Char)} {line : List Char}
    {key : String} {ts : Nat} {data : List Char}
    (h : parseLogLine line = some (key, ts, data)) :
    processStep acc line
      = if key = "worker" then (acc.1 ++ [formatLogEntry ts data], acc.2)
        else (acc.1, acc.2 ++ [formatLogEntry ts data]) := by
  simp [processStep, h]

lemma processLines_singleton (line : List Char) :
    processLines [line] = processStep ([], []) line := rfl

lemma writeLogsToFile_eq (logs : List (List Char)) (header : List Char) :
    writeLogsToFile logs header
      = header ++ (logs.map (fun l => l ++ ['\n'])).flatten := by
  induction logs generalizing header with
  | nil => simp [writeLogsToFile]
  | cons x xs ih =>
    simp only [writeLogsToFile, List.foldl_cons] at ih ⊢
    rw [ih (header ++ x ++ ['\n'])]
    simp [List.append_assoc]


/-! ## Claim theorems -/

/-- C1: every input line of the shape `<integer> instruments: <rest>`
whose `<rest>`, split on commas, has exactly 11 items is classified by
`parse_log_line` as Worker together with the parsed integer timestamp
and the payload carrying those 11 fields in their original order
(joining the split fields back with commas returns the payload
verbatim). -/
theorem worker_classification_of_eleven_fields
    (tsStr rest : List Char)
    (h1 : tsStr ≠ []) (h2 : ∀ c ∈ tsStr, c.isDigit = true)
    (h3 : rest ≠ []) (h4 : ∀ c ∈ rest, c ≠ '\n')
    (h11 : (splitOnComma rest).length = 11) :
    parseLogLine (tsStr ++ " instruments: ".toList ++ rest)
      = some ("worker", digitsToNat tsStr, rest)
    ∧ joinComma (splitOnComma rest) = rest := by
  refine ⟨?_, joinComma_splitOnComma rest⟩
  rw [parseLogLine_construct tsStr rest h1 h2 h3 h4, if_pos h11]

/-- Witness for C1 at the concrete worker line of the spec. -/
theorem worker_classification_of_eleven_fields_witness :
    parseLogLine ("100 instruments: 1,2,3,4,5,6,7,8,9,10,11".toList)
      = some ("worker", 100, "1,2,3,4,5,6,7,8,9,10,11".toList) := by
  have h := (worker_classification_of_eleven_fields "100".toList
      "1,2,3,4,5,6,7,8,9,10,11".toList (by decide) (by decide) (by decide)
      (by decide) (by decide)).1
  have e : "100".toList ++ " instruments: ".toList ++ "1,2,3,4,5,6,7,8,9,10,11".toList
      = "100 instruments: 1,2,3,4,5,6,7,8,9,10,11".toList := by decide
  have e2 : digitsToNat ("100".toList) = 100 := by decide
  rw [e, e2] at h
  exact h

/-- C2: a matching line whose payload splits into exactly 24
comma-separated fields is classified Controller; a matching line with
any other field count is not classified at all. -/
theorem controller_or_no_classification
    (tsStr rest : List Char)
    (h1 : tsStr ≠ []) (h2 : ∀ c ∈ tsStr, c.isDigit = true)
    (h3 : rest ≠ []) (h4 : ∀ c ∈ rest, c ≠ '\n') :
    ((splitOnComma rest).length = 24 →
      parseLogLine (tsStr ++ " instruments: ".toList ++ rest)
        = some ("controller", digitsToNat tsStr, rest))
    ∧ ((splitOnComma rest).length ≠ 11 → (splitOnComma rest).length ≠ 24 →
      parseLogLine (tsStr ++ " instruments: ".toList ++ rest) = none) := by
  constructor
  · intro h24
    have h11 : (splitOnComma rest).length ≠ 11 := by omega
    rw [parseLogLine_construct tsStr rest h1 h2 h3 h4, if_neg h11, if_pos h24]
  · intro h11 h24
    rw [parseLogLine_construct tsStr rest h1 h2 h3 h4, if_neg h11, if_neg h24]

/-- Witness for C2: a concrete 24-field line is tagged controller and a
concrete 5-field line yields no match. -/
theorem controller_or_no_classification_witness :
    parseLogLine ("200 instruments: 1,2,3,4,5,6,7,8,9,10,11,12,13,14,15,16,17,18,19,20,21,22,23,24".toList)
      = some ("controller", 200,
          "1,2,3,4,5,6,7,8,9,10,11,12,13,14,15,16,17,18,19,20,21,22,23,24".toList)
    ∧ parseLogLine ("3 instruments: a,b,c,d,e".toList) = none := by
  constructor
  · have h := (controller_or_no_classification "200".toList
        "1,2,3,4,5,6,7,8,9,10,11,12,13,14,15,16,17,18,19,20,21,22,23,24".toList
        (by decide) (by decide) (by decide) (by decide)).1 (by decide)
    have e : "200".toList ++ " instruments: ".toList
        ++ "1,2,3,4,5,6,7,8,9,10,11,12,13,14,15,16,17,18,19,20,21,22,23,24".toList
        = "200 instruments: 1,2,3,4,5,6,7,8,9,10,11,12,13,14,15,16,17,18,19,20,21,22,23,24".toList := by
      decide
    have e2 : digitsToNat ("200".toList) = 200 := by decide
    rw [e, e2] at h
    exact h
  · have h := (controller_or_no_classification "3".toList "a,b,c,d,e".toList
        (by decide) (by decide) (by decide) (by decide)).2 (by decide) (by decide)
    have e : "3".toList ++ " instruments: ".toList ++ "a,b,c,d,e".toList
        = "3 instruments: a,b,c,d,e".toList := by decide
    rw [e] at h
    exact h

/-- C3: a line without the substring `instruments:`, and more generally
any line the regular expression does not match, is classified as no
match and contributes no row to either dataset; the classifier and the
accumulation loop are total functions, so no error is raised or
reported for such a line. -/
theorem nonmatching_lines_silently_dropped (line : List Char) :
    (occursIn ("instruments:".toList) line = false → parseLogLine line = none)
    ∧ (reMatchInstr line = none → parseLogLine line = none)
    ∧ (parseLogLine line = none →
        ∀ pre post : List (List Char),
          processLines (pre ++ line :: post) = processLines (pre ++ post)) := by
  refine ⟨?_, ?_, ?_⟩
  · intro h
    unfold parseLogLine
    rw [if_neg (by rw [h]; simp)]
  · intro h
    simp [parseLogLine, h]
  · intro h pre post
    simp only [processLines, List.foldl_append, List.foldl_cons, processStep_none h]

/-- Witness for C3: a line with no marker, a malformed line containing
the marker, and the disappearance of such a line from the datasets. -/
theorem nonmatching_lines_silently_dropped_witness :
    parseLogLine ("hello world".toList) = none
    ∧ parseLogLine ("abc instruments: 1,2".toList) = none
    ∧ processLines ["hello world".toList,
        "100 instruments: 1,2,3,4,5,6,7,8,9,10,11".toList]
      = processLines ["100 instruments: 1,2,3,4,5,6,7,8,9,10,11".toList] := by
  refine ⟨(nonmatching_lines_silently_dropped ("hello world".toList)).1 (by decide),
    (nonmatching_lines_silently_dropped ("abc instruments: 1,2".toList)).2.1 (by decide),
    ?_⟩
  exact (nonmatching_lines_silently_dropped ("hello world".toList)).2.2 (by decide)
    [] ["100 instruments: 1,2,3,4,5,6,7,8,9,10,11".toList]

/-- C4: the concrete line `100 instruments: 1,2,…,11` is emitted as the
Worker row `100, 1,2,…,11`; in general a row is the decimal timestamp,
a comma, a single space, then the comma-joined (escaped and stripped)
fields. -/
theorem row_format_roundtrip :
    processLines ["100 instruments: 1,2,3,4,5,6,7,8,9,10,11".toList]
      = (["100, 1,2,3,4,5,6,7,8,9,10,11".toList], [])
    ∧ ∀ (ts : Nat) (data : List Char),
        formatLogEntry ts data
          = (toString ts).toList ++ ',' :: ' ' ::
              pyStrip (escapeQuotes (joinComma (splitOnComma data))) := by
  refine ⟨by decide, fun ts data => ?_⟩
  rw [joinComma_splitOnComma]
  rfl

/-- C5: each double quote of the payload is escaped by prefixing one
backslash (in the escaped payload every `"` is immediately preceded by
`\`), the concrete payload `a"b` is emitted as `a\"b`, and this is the
only transformation: it can be undone by dropping the inserted
backslashes, it inserts exactly one backslash per quote, and commas are
left untouched (embedded commas get no CSV protection). -/
theorem quote_escaping_only_transformation :
    (∀ l : List Char, quotesEscaped (escapeQuotes l) = true)
    ∧ (∀ l : List Char, unescapeQuotes (escapeQuotes l) = l)
    ∧ (∀ l : List Char, (escapeQuotes l).count '\\' = l.count '\\' + l.count '"')
    ∧ (∀ l : List Char, (escapeQuotes l).count ',' = l.count ',')
    ∧ processLines ["1 instruments: a\"b,2,3,4,5,6,7,8,9,10,11".toList]
        = (["1, a\\\"b,2,3,4,5,6,7,8,9,10,11".toList], []) :=
  ⟨quotesEscaped_escapeQuotes, unescapeQuotes_escapeQuotes,
   escapeQuotes_count_backslash, escapeQuotes_count_comma, by decide⟩

/-- C6: `write_logs_to_file` produces — independently of any previous
content of the destination, which mode `'w'` truncates — the header
followed by exactly one newline-terminated line per accumulated row, in
order; for an input file holding exactly one Worker line and one
Controller line, each output CSV consists of exactly 2 lines (2
newlines: header plus one row). -/
theorem batch_writer_header_then_rows :
    (∀ (logs : List (List Char)) (header : List Char),
        writeLogsToFile logs header
          = header ++ (logs.map (fun l => l ++ ['\n'])).flatten)
    ∧ parseLogLine ("100 instruments: 1,2,3,4,5,6,7,8,9,10,11".toList)
        = some ("worker", 100, "1,2,3,4,5,6,7,8,9,10,11".toList)
    ∧ parseLogLine ("200 instruments: 1,2,3,4,5,6,7,8,9,10,11,12,13,14,15,16,17,18,19,20,21,22,23,24".toList)
        = some ("controller", 200,
            "1,2,3,4,5,6,7,8,9,10,11,12,13,14,15,16,17,18,19,20,21,22,23,24".toList)
    ∧ (processLog 0 ["100 instruments: 1,2,3,4,5,6,7,8,9,10,11".toList,
        "200 instruments: 1,2,3,4,5,6,7,8,9,10,11,12,13,14,15,16,17,18,19,20,21,22,23,24".toList]).1.count '\n' = 2
    ∧ (processLog 0 ["100 instruments: 1,2,3,4,5,6,7,8,9,10,11".toList,
        "200 instruments: 1,2,3,4,5,6,7,8,9,10,11,12,13,14,15,16,17,18,19,20,21,22,23,24".toList]).2.count '\n' = 2 :=
  ⟨writeLogsToFile_eq, by decide, by decide, by decide, by decide⟩

/-- C7: one polling cycle is a pure function of the input lines: the
previous contents of the destination files do not influence the result,
and running the cycle a second time over the unchanged input produces
byte-identical output files. -/
theorem cycle_idempotent_and_stateless :
    ∀ (lines : List (List Char)) (prev prev₁ prev₂ : List Char × List Char),
      runCycle lines (runCycle lines prev) = runCycle lines prev
      ∧ runCycle lines prev₁ = runCycle lines prev₂ :=
  fun _ _ _ _ => ⟨rfl, rfl⟩

/-- C8: the calendar-based conversion `convert_to_unix_timestamp` has
no effect on any output: its only call site is commented out in
`process_log`, so the produced files are independent of the wall-clock
state (`nowYear`), and the timestamp heading every emitted row is the
raw counter parsed from the line itself. -/
theorem wallclock_conversion_is_dead :
    (∀ (y₁ y₂ : Nat) (lines : List (List Char)),
        processLog y₁ lines = processLog y₂ lines)
    ∧ ∀ (line : List Char) (key : String) (ts : Nat) (data : List Char),
        parseLogLine line = some (key, ts, data) →
        ∃ payload : List Char,
          (if key = "worker" then (processLines [line]).1
           else (processLines [line]).2)
            = [(toString ts).toList ++ ',' :: ' ' :: payload] := by
  refine ⟨fun _ _ _ => rfl, fun line key ts data h => ?_⟩
  refine ⟨pyStrip (escapeQuotes data), ?_⟩
  by_cases hk : key = "worker"
  · simp [processLines, processStep, h, hk, formatLogEntry]
  · simp [processLines, processStep, h, hk, formatLogEntry]

/-- Witness for C8 at the concrete worker line: the emitted row starts
with the raw counter 100. -/
theorem wallclock_conversion_is_dead_witness :
    ∃ payload : List Char,
      (if ("worker" : String) = "worker"
       then (processLines ["100 instruments: 1,2,3,4,5,6,7,8,9,10,11".toList]).1
       else (processLines ["100 instruments: 1,2,3,4,5,6,7,8,9,10,11".toList]).2)
        = [(toString 100).toList ++ ',' :: ' ' :: payload] :=
  (wallclock_conversion_is_dead).2 ("100 instruments: 1,2,3,4,5,6,7,8,9,10,11".toList)
    "worker" 100 ("1,2,3,4,5,6,7,8,9,10,11".toList) (by decide)

/-- C9: the payload is escaped and then stripped of leading and
trailing whitespace before the row is emitted, so a matching line with
trailing spaces after its last field yields exactly the same datasets as
the identical line without them — although the spaces do belong to the
last field while counting fields for classification (the field count is
unchanged by appending them). -/
theorem trailing_spaces_do_not_change_row
    (tsStr rest ws : List Char)
    (h1 : tsStr ≠ []) (h2 : ∀ c ∈ tsStr, c.isDigit = true)
    (h3 : rest ≠ []) (h4 : ∀ c ∈ rest, c ≠ '\n')
    (hws : ∀ c ∈ ws, c = ' ') :
    processLines [tsStr ++ " instruments: ".toList ++ (rest ++ ws)]
      = processLines [tsStr ++ " instruments: ".toList ++ rest]
    ∧ (splitOnComma (rest ++ ws)).length = (splitOnComma rest).length := by
  have hwsWs : ∀ c ∈ ws, Char.isWhitespace c = true := fun c hc => by
    rw [hws c hc]; decide
  have hwsQ : ∀ c ∈ ws, c ≠ '"' := fun c hc => by rw [hws c hc]; decide
  have hwsC : ws.count ',' = 0 := by
    rw [List.count_eq_zero]
    intro hmem
    have h := hws ',' hmem
    exact absurd h (by decide)
  have hlen : (splitOnComma (rest ++ ws)).length = (splitOnComma rest).length := by
    rw [splitOnComma_length, splitOnComma_length, List.count_append, hwsC]
  have hne : rest ++ ws ≠ [] := by
    cases rest with
    | nil => exact absurd rfl h3
    | cons a t => simp
  have hnl : ∀ c ∈ rest ++ ws, c ≠ '\n' := by
    intro c hc
    rcases List.mem_append.mp hc with h | h
    · exact h4 c h
    · rw [hws c h]; decide
  have hdata : pyStrip (escapeQuotes (rest ++ ws)) = pyStrip (escapeQuotes rest) := by
    rw [escapeQuotes_append, escapeQuotes_of_no_quote hwsQ, pyStrip_append_ws _ hwsWs]
  have hp1 := parseLogLine_construct tsStr (rest ++ ws) h1 h2 hne hnl
  have hp2 := parseLogLine_construct tsStr rest h1 h2 h3 h4
  rw [hlen] at hp1
  refine ⟨?_, hlen⟩
  rw [processLines_singleton, processLines_singleton]
  by_cases h11 : (splitOnComma rest).length = 11
  · rw [if_pos h11] at hp1 hp2
    rw [processStep_some hp1, processStep_some hp2]
    simp [formatLogEntry, hdata]
  · by_cases h24 : (splitOnComma rest).length = 24
    · rw [if_neg h11, if_pos h24] at hp1 hp2
      rw [processStep_some hp1, processStep_some hp2]
      simp [formatLogEntry, hdata]
    · rw [if_neg h11, if_neg h24] at hp1 hp2
      rw [processStep_none hp1, processStep_none hp2]

/-- Witness for C9: a concrete 11-field line with three trailing spaces
yields the same datasets as the line without them. -/
theorem trailing_spaces_do_not_change_row_witness :
    processLines ["5 instruments: a,b,c,d,e,f,g,h,i,j,k   ".toList]
      = processLines ["5 instruments: a,b,c,d,e,f,g,h,i,j,k".toList] := by
  have h := (trailing_spaces_do_not_change_row "5".toList
      "a,b,c,d,e,f,g,h,i,j,k".toList "   ".toList (by decide) (by decide)
      (by decide) (by decide) (by decide)).1
  have e1 : "5".toList ++ " instruments: ".toList
      ++ ("a,b,c,d,e,f,g,h,i,j,k".toList ++ "   ".toList)
      = "5 instruments: a,b,c,d,e,f,g,h,i,j,k   ".toList := by decide
  have e2 : "5".toList ++ " instruments: ".toList ++ "a,b,c,d,e,f,g,h,i,j,k".toList
      = "5 instruments: a,b,c,d,e,f,g,h,i,j,k".toList := by decide
  rw [e1, e2] at h
  exact h

/-- C10: the matched digit prefix is converted with `int` before the
row is formatted, so leading zeros are not preserved: a leading `'0'`
never changes the parsed value, and the concrete line
`007 instruments: 1,2,…,11` emits a row starting with `7, `. -/
theorem leading_zeros_not_preserved :
    (∀ l : List Char, digitsToNat ('0' :: l) = digitsToNat l)
    ∧ processLines ["007 instruments: 1,2,3,4,5,6,7,8,9,10,11".toList]
        = (["7, 1,2,3,4,5,6,7,8,9,10,11".toList], []) := by
  constructor
  · intro l
    have h0 : (0 : Nat) * 10 + ('0'.toNat - '0'.toNat) = 0 := by decide
    simp [digitsToNat, List.foldl_cons, h0]
  · decide
